import Mathlib

/-!
# Browser WireGuard client bring-up and iOS upstream DNS client

A shallow embedding of `browser/wasm/client_js.go` (key generation, `connect`,
the background bring-up `connectToSignal`) and of
`client/internal/dns/upstream_ios.go` (`getClientPrivate`).

Calls that leave the two files (the signaling client, the netstack TUN, the
WebRTC bind, the WireGuard device, the random source, the raw socket) are
represented by their outcome, supplied by an environment record; every call
the code makes is recorded as an event, in program order.
-/

set_option maxRecDepth 100000

namespace Netbird

/-! ## Bytes, keys and errors -/

/-- A Go `byte`. -/
abbrev Byte := Fin 256

/-- Truncation of a natural number to a byte. -/
def byteOf (n : Nat) : Byte := ⟨n % 256, Nat.mod_lt n (by decide)⟩

/-- The constant `wgtypes.KeyLen`. -/
def KeyLen : Nat := 32

/-- The type `wgtypes.Key`, a `[32]byte`. -/
structure Key where
  bytes : List Byte
  len : bytes.length = KeyLen
deriving DecidableEq

/-- A Go `error` value, identified with its message. -/
abbrev Err := String

deriving instance DecidableEq for Except

/-- The key whose 32 bytes all equal `b`. -/
def Key.replicate (b : Byte) : Key := ⟨List.replicate 32 b, by simp [KeyLen]⟩

/-! ## `encoding/hex` -/

/-- The constant `hextable` of `encoding/hex`. -/
def hextable : List Char := "0123456789abcdef".toList

/-- Table lookup `hextable[n]`. -/
def hexDigit (n : Nat) : Char := hextable.getD n '0'

/-- The loop of `hex.Encode`: each byte `v` gives `hextable[v>>4]`, `hextable[v&0x0f]`. -/
def hexEncode : List Byte → List Char
  | [] => []
  | v :: rest => hexDigit (v.val / 16) :: hexDigit (v.val % 16) :: hexEncode rest

/-- The function `hex.EncodeToString`. -/
def hexEncodeToString (src : List Byte) : String := String.mk (hexEncode src)

/-- The function `fromHexChar` of `encoding/hex` (the table `reverseHexTable`). -/
def fromHexChar (c : Char) : Option Nat :=
  if '0' ≤ c ∧ c ≤ '9' then some (c.toNat - '0'.toNat)
  else if 'a' ≤ c ∧ c ≤ 'f' then some (c.toNat - 'a'.toNat + 10)
  else if 'A' ≤ c ∧ c ≤ 'F' then some (c.toNat - 'A'.toNat + 10)
  else none

/-- The loop of `hex.Decode`: two digits give one byte `(a << 4) | b`; a digit
outside the table or an odd length is an error. -/
def hexDecode : List Char → Option (List Byte)
  | [] => some []
  | [_] => none
  | p :: q :: rest =>
    match fromHexChar p, fromHexChar q, hexDecode rest with
    | some a, some b, some out => some (byteOf (a * 16 + b) :: out)
    | _, _, _ => none

/-- The function `hex.DecodeString`. -/
def hexDecodeString (s : String) : Option (List Byte) := hexDecode s.data

/-! ## `fmt.Sprintf` restricted to the verb `%s` with string operands -/

/-- The formatting loop of `fmt.Sprintf` for formats whose only verb is `%s`:
literal characters are copied, each `%s` is replaced by the next operand, and
a `%s` without operand prints `%!s(MISSING)`. -/
def sprintfChars : List Char → List String → List Char
  | [], _ => []
  | [c], _ => [c]
  | c :: d :: rest, args =>
    if c = '%' ∧ d = 's' then
      match args with
      | a :: args' => a.data ++ sprintfChars rest args'
      | [] => "%!s(MISSING)".data ++ sprintfChars rest []
    else c :: sprintfChars (d :: rest) args

/-- The function `fmt.Sprintf`. -/
def Sprintf (format : String) (args : List String) : String :=
  String.mk (sprintfChars format.data args)

/-! ## The configuration text of `connectToSignal` -/

/-- The format string of the `dev.IpcSet` call. -/
def ipcFormat : String :=
  "private_key=%s\npublic_key=%s\npersistent_keepalive_interval=5\nendpoint=65.108.52.126:50000\nallowed_ip=0.0.0.0/0"

/-- The argument of `dev.IpcSet` in `connectToSignal`. -/
def ipcText (key remoteKey : Key) : String :=
  Sprintf ipcFormat [hexEncodeToString key.bytes, hexEncodeToString remoteKey.bytes]

/-- The function `strings.Split(s, "\n")` on the characters of a text. -/
def splitLines : List Char → List (List Char)
  | [] => [[]]
  | c :: rest =>
    if c = '\n' then [] :: splitLines rest
    else
      match splitLines rest with
      | [] => [[c]]
      | l :: ls => (c :: l) :: ls

/-- The function `strings.Cut(line, "=")`: the text before and after the
first `=`, nothing when the line has none. -/
def cutEq : List Char → Option (List Char × List Char)
  | [] => none
  | c :: rest =>
    if c = '=' then some ([], rest)
    else (cutEq rest).map (fun p => (c :: p.1, p.2))

/-- The value of the first line `name=value` of a configuration text, read
the way the engine reads it: line by line, each line cut at its first `=`. -/
def lookupValue (name text : String) : Option String :=
  (splitLines text.data).findSome? (fun l =>
    match cutEq l with
    | some (k, v) => if k = name.data then some (String.mk v) else none
    | none => none)

/-! ## `encoding/base64`, `StdEncoding` (used by `wgtypes.Key.String` and `wgtypes.ParseKey`)

The package `wgtypes` and the Go standard library are external to the two
files; their functions are transcribed from their published sources. -/

/-- The alphabet `encodeStd` of `encoding/base64`. -/
def encodeStd : List Char :=
  "ABCDEFGHIJKLMNOPQRSTUVWXYZabcdefghijklmnopqrstuvwxyz0123456789+/".toList

/-- Table lookup `enc.encode[n]`. -/
def b64Char (n : Nat) : Char := encodeStd.getD n 'A'

/-- The function `Encoding.Encode` for `StdEncoding`: three bytes form
`val = b0<<16 | b1<<8 | b2` and give the four characters
`encode[val>>18&0x3F]`, `encode[val>>12&0x3F]`, `encode[val>>6&0x3F]`,
`encode[val&0x3F]`; one or two remaining bytes are padded with `=`. -/
def b64Encode : List Byte → List Char
  | [] => []
  | [x] =>
    let val := x.val * 65536
    [b64Char (val / 262144 % 64), b64Char (val / 4096 % 64), '=', '=']
  | [x, y] =>
    let val := x.val * 65536 + y.val * 256
    [b64Char (val / 262144 % 64), b64Char (val / 4096 % 64), b64Char (val / 64 % 64), '=']
  | x :: y :: z :: rest =>
    let val := x.val * 65536 + y.val * 256 + z.val
    b64Char (val / 262144 % 64) :: b64Char (val / 4096 % 64) :: b64Char (val / 64 % 64)
      :: b64Char (val % 64) :: b64Encode rest

/-- The table `decodeMap` of `StdEncoding`: the position of a character in the
alphabet, nothing for any other character (the padding `=` included). -/
def b64Sextet (c : Char) : Option Nat :=
  let i := encodeStd.indexOf c
  if i < 64 then some i else none

/-- The last quantum of `decodeQuantum`: `xx==` gives one byte, `xxx=` two,
`xxxx` three, with `val = d0<<18 | d1<<12 | d2<<6 | d3`. -/
def b64DecodeLast (a b c d : Char) : Option (List Byte) :=
  match b64Sextet a, b64Sextet b with
  | some va, some vb =>
    if c = '=' then
      if d = '=' then some [byteOf ((va * 262144 + vb * 4096) / 65536)] else none
    else
      match b64Sextet c with
      | none => none
      | some vc =>
        if d = '=' then
          let val := va * 262144 + vb * 4096 + vc * 64
          some [byteOf (val / 65536), byteOf (val / 256)]
        else
          match b64Sextet d with
          | none => none
          | some vd =>
            let val := va * 262144 + vb * 4096 + vc * 64 + vd
            some [byteOf (val / 65536), byteOf (val / 256), byteOf val]
  | _, _ => none

/-- The quantum loop of `Encoding.Decode` on input without line breaks: every
quantum has four characters, padding is accepted in the last quantum only,
and anything after the padding is an error. -/
def b64DecodeQuanta : List Char → Option (List Byte)
  | [] => some []
  | [a, b, c, d] => b64DecodeLast a b c d
  | a :: b :: c :: d :: e :: rest =>
    match b64Sextet a, b64Sextet b, b64Sextet c, b64Sextet d, b64DecodeQuanta (e :: rest) with
    | some va, some vb, some vc, some vd, some out =>
      let val := va * 262144 + vb * 4096 + vc * 64 + vd
      some (byteOf (val / 65536) :: byteOf (val / 256) :: byteOf val :: out)
    | _, _, _, _, _ => none
  | _ => none

/-- The function `StdEncoding.DecodeString`; the decoder skips `\r` and `\n`
wherever they stand. -/
def b64DecodeString (s : String) : Option (List Byte) :=
  b64DecodeQuanta (s.data.filter (fun c => c != '\n' && c != '\r'))

/-! ## `wgtypes` -/

/-- The method `Key.String`: `base64.StdEncoding.EncodeToString(k[:])`. -/
def Key.String (k : Key) : String := String.mk (b64Encode k.bytes)

/-- The function `wgtypes.NewKey`: a slice of exactly `KeyLen` bytes. -/
def NewKey (b : List Byte) : Except Err Key :=
  if h : b.length = KeyLen then .ok ⟨b, h⟩
  else .error ("wgtypes: incorrect key size: " ++ toString b.length)

/-- The function `wgtypes.ParseKey`: base64 decoding, then `NewKey`. -/
def ParseKey (s : String) : Except Err Key :=
  match b64DecodeString s with
  | none => .error "wgtypes: failed to parse base64-encoded key"
  | some b => NewKey b

/-- The text `s` decodes to exactly 32 bytes. -/
def DecodesTo32 (s : String) : Prop :=
  (b64DecodeString s).map List.length = some 32

instance (s : String) : Decidable (DecodesTo32 s) := by
  unfold DecodesTo32; infer_instance

/-- The clamping that Curve25519 applies to a scalar before the
multiplication: `k[0] &= 248`, `k[31] &= 127`, `k[31] |= 64`. -/
def clampScalar (k : Key) : Key :=
  ⟨(k.bytes.modify (fun b => byteOf (b.val / 8 * 8)) 0).modify
      (fun b => byteOf (b.val % 64 + 64)) 31, by
    simp [List.length_modify, k.len]⟩

/-! ## The background bring-up `connectToSignal` -/

/-- The stages of a bring-up, named as the states of the session controller:
opening the signaling channel, the wait after it opened, creating the binding
and the device, applying the configuration, the started device. -/
inductive Phase
  | signalConnecting
  | signalOpen
  | binding
  | configuring
  | up
deriving DecidableEq, Repr

/-- The outcomes of the calls that `connectToSignal` and the entry points make
outside the file. `cancelledIn` is the stage during which the context `ctx`
of `main` is cancelled or reaches its deadline of ten minutes, if it does;
`newWebsocketClient` gives the error of `client.NewWebsocketClient` as a
function of whether `ctx` is done while it runs, the only call that receives
`ctx`. The other fields are the errors returned by `netstack.CreateNetTUN`,
`dev.IpcSet` and `dev.Up` (`none` is `nil`); they are given for one execution
and are not computed from the arguments of the calls. -/
structure Env where
  derivePublic : Key → Key
  cancelledIn : Option Phase
  newWebsocketClient : Bool → Option Err
  createNetTUN : Option Err
  ipcSet : Option Err
  devUp : Option Err

/-- The calls of a bring-up that reach outside the function, with their
arguments. `closeSignal` and `closeBind` stand for `Close` on the signaling
client and on the bind. -/
inductive Event
  | newWebsocketClient (url : String) (key : Key)
  | sleep (seconds : Nat)
  | logPrintf (msg : String)
  | createNetTUN (addr dns : String) (mtu : Nat)
  | newWebRTCBind (chann localKey remoteKey : String)
  | newDevice
  | ipcSet (text : String)
  | logPrintln (msg : String)
  | logPanic (err : Err)
  | devUp
  | closeSignal
  | closeBind
deriving DecidableEq

/-- How the goroutine ends: `return`, a panic raised by `log.Panic`, or the
final `select {}`, which blocks forever with the device started. -/
inductive Exit
  | returned
  | panicked (err : Err)
  | blocked
deriving DecidableEq

/-- One execution of `connectToSignal`: its calls in program order and its end. -/
structure Run where
  trace : List Event
  exit : Exit
deriving DecidableEq

/-- The method `Key.PublicKey`, Curve25519 scalar multiplication by the base
point, taken from the environment. -/
def Key.PublicKey (env : Env) (k : Key) : Key := env.derivePublic k

/-- The closure `connectToSignal` of `main`. The error of
`netstack.CreateNetTUN` is assigned to `err` and overwritten by the error of
`dev.IpcSet` without being read, so the calls that follow are made whatever
it is. -/
def connectToSignal (env : Env) (key remoteKey : Key) : Run :=
  let t0 := [Event.newWebsocketClient "ws://localhost:80/signal" key]
  match env.newWebsocketClient (env.cancelledIn == some Phase.signalConnecting) with
  | some _ => ⟨t0, Exit.returned⟩
  | none =>
    let t1 := t0 ++
      [Event.sleep 5,
       Event.logPrintf (Sprintf "connected to signal" []),
       Event.createNetTUN "10.100.0.2" "8.8.8.8" 1420,
       Event.newWebRTCBind "chann-1" (key.PublicKey env).String remoteKey.String,
       Event.newDevice,
       Event.ipcSet (Sprintf ipcFormat
         [hexEncodeToString key.bytes, hexEncodeToString remoteKey.bytes]),
       Event.logPrintln "4"]
    match env.ipcSet with
    | some err => ⟨t1 ++ [Event.logPanic err], Exit.panicked err⟩
    | none =>
      let t2 := t1 ++ [Event.devUp]
      match env.devUp with
      | some err => ⟨t2 ++ [Event.logPanic err], Exit.panicked err⟩
      | none => ⟨t2 ++ [Event.logPrintf (Sprintf "device started" [])], Exit.blocked⟩

/-- The messages a list of calls writes to the log. -/
def logOf : List Event → List String
  | [] => []
  | Event.logPrintf m :: rest => m :: logOf rest
  | Event.logPrintln m :: rest => m :: logOf rest
  | Event.logPanic e :: rest => e :: logOf rest
  | _ :: rest => logOf rest

/-- The call opens the signaling channel. -/
def Event.isSignal : Event → Bool
  | Event.newWebsocketClient _ _ => true
  | _ => false

/-- The call creates the transport binding. -/
def Event.isBind : Event → Bool
  | Event.newWebRTCBind _ _ _ => true
  | _ => false

/-- The call applies the configuration. -/
def Event.isIpcSet : Event → Bool
  | Event.ipcSet _ => true
  | _ => false

/-- The call starts the engine. -/
def Event.isUp : Event → Bool
  | Event.devUp => true
  | _ => false

/-- The call is one of the four steps whose order the bring-up must keep:
opening the signaling channel, creating the binding, applying the
configuration, starting the engine. -/
def Event.isMilestone (e : Event) : Bool :=
  e.isSignal || e.isBind || e.isIpcSet || e.isUp

/-- The call releases a resource. -/
def Event.isClose : Event → Bool
  | Event.closeSignal => true
  | Event.closeBind => true
  | _ => false

/-- The error `e` is reported by an execution: it is written to the log or
it is the value of the panic that ends the goroutine. -/
def Run.reports (r : Run) (e : Err) : Bool :=
  decide (e ∈ logOf r.trace) || decide (r.exit = Exit.panicked e)

/-! ## The entry points `generateWireguardKey` and `connect` -/

/-- The three input elements of the page that the entry points read and write. -/
structure Dom where
  wgPrivateKey : String
  publicKey : String
  peerKey : String
deriving DecidableEq

/-- The state the entry points act on: the page, the log, the goroutines
started by `go connectToSignal(key, remoteKey)`, oldest first, and the panic
that ended the program, if one did. -/
structure State where
  dom : Dom
  log : List String
  spawned : List (Key × Key)
  exited : Option String
deriving DecidableEq

/-- The conversion `js.ValueOf` of `syscall/js` on the value a callback
returns: `nil` converts to `null`; a Go `error` is none of the types the
function converts, and it panics with `ValueOf: invalid value`. -/
def jsValueOf (result : Option Err) : Except String Unit :=
  match result with
  | none => .ok ()
  | some _ => .error "ValueOf: invalid value"

/-- The end of a callback installed with `js.FuncOf`: the runtime converts the
returned value with `js.ValueOf`. When the conversion succeeds the caller
receives the converted value (`null`, no error); when it panics the Go program
exits, so the caller receives no value and every goroutine ends. The first
component is the error that reaches the caller. -/
def funcOfReturn (result : Option Err) (s : State) : Option Err × State :=
  match jsValueOf result with
  | .ok _ => (none, s)
  | .error p => (none, { s with spawned := [], exited := some p })

/-- The function installed as `generateWireguardKey` with `js.FuncOf`; `gen`
is the outcome of `wgtypes.GenerateKey()`. The function literal returns `nil`
on every path. -/
def generateWireguardKey (env : Env) (gen : Except Err Key) (s : State) :
    Option Err × State :=
  match gen with
  | .error _ => funcOfReturn none s
  | .ok key =>
    let d1 := { s.dom with wgPrivateKey := key.String }
    let l1 := s.log ++ [Sprintf "Wireguard Public key %s" [(key.PublicKey env).String]]
    let d2 := { d1 with publicKey := (key.PublicKey env).String }
    funcOfReturn none { s with dom := d2, log := l1 }

/-- The function installed as `connect` with `js.FuncOf`: the error that
reaches the caller (`nil` is `none`) and the state after the call. The
function literal ends with `return err` when `ParseKey` fails and with
`return nil` after `go connectToSignal(key, remoteKey)`. -/
def connect (env : Env) (s : State) : Option Err × State :=
  match ParseKey s.dom.wgPrivateKey with
  | .error err => funcOfReturn (some err) s
  | .ok key =>
    match ParseKey s.dom.peerKey with
    | .error err => funcOfReturn (some err) s
    | .ok remoteKey =>
      let l1 := s.log ++ [Sprintf "Remote Wireguard Public key %s" [remoteKey.String]]
      let l2 := l1 ++ [Sprintf "Our Wireguard Public key %s" [(key.PublicKey env).String]]
      funcOfReturn none { s with log := l2, spawned := s.spawned ++ [(key, remoteKey)] }

/-! ## `getClientPrivate` of `upstream_ios.go` -/

/-- The fields of `upstreamResolver` that `getClientPrivate` reads: the local
address and the index of the interface. -/
structure UpstreamResolver where
  lIP : List Byte
  iIndex : Int
deriving DecidableEq

/-- The type `net.UDPAddr`. -/
structure UDPAddr where
  IP : List Byte
  Port : Int
deriving DecidableEq

/-- A `syscall.RawConn` as `net.Dialer` hands it to its `Control` hook: the
method `Control` either fails without invoking its argument, or invokes it
once on the descriptor and returns `nil`. -/
inductive RawConn
  | closed (err : Err)
  | live (fd : Int)
deriving DecidableEq

/-- The constant `unix.IPPROTO_IP`. -/
def IPPROTO_IP : Int := 0

/-- The constant `unix.IP_BOUND_IF` (Darwin). -/
def IP_BOUND_IF : Int := 25

/-- The system call behind `unix.SetsockoptInt(fd, level, opt, value)`. -/
structure Sys where
  SetsockoptInt : Int → Int → Int → Int → Option Err

/-- The type `net.Dialer`, with the fields `getClientPrivate` sets. The hook
returns its error together with the messages it logs. -/
structure NetDialer where
  LocalAddr : UDPAddr
  Timeout : Int
  Control : String → String → RawConn → Option Err × List String

/-- The type `dns.Client`, with the field `getClientPrivate` sets. -/
structure DnsClient where
  Dialer : NetDialer

/-- The function literal assigned to `Control` in `getClientPrivate`. -/
def controlHook (sys : Sys) (u : UpstreamResolver) (_network _address : String)
    (c : RawConn) : Option Err × List String :=
  match c with
  | RawConn.closed err => (some err, [])
  | RawConn.live s =>
    let operr := sys.SetsockoptInt s IPPROTO_IP IP_BOUND_IF u.iIndex
    match operr with
    | some e => (operr, [Sprintf "error while setting socket option: %s" [e]])
    | none => (operr, [])

/-- The method `getClientPrivate`; `upstreamTimeout` is the constant of the
package, declared in another file. -/
def getClientPrivate (sys : Sys) (upstreamTimeout : Int) (u : UpstreamResolver) : DnsClient :=
  let dialer : NetDialer :=
    { LocalAddr := { IP := u.lIP, Port := 0 }
      Timeout := upstreamTimeout
      Control := controlHook sys u }
  { Dialer := dialer }


/-! ## Sample inputs -/

/-- An environment in which every external call succeeds unless the context
is done while the signaling channel is opened; clamping stands in for the
public-key derivation. -/
def envUp : Env :=
  { derivePublic := clampScalar
    cancelledIn := none
    newWebsocketClient := fun done => if done then some "context deadline exceeded" else none
    createNetTUN := none
    ipcSet := none
    devUp := none }

/-- The signaling service refuses the connection. -/
def envSignalDown : Env :=
  { envUp with newWebsocketClient := fun _ => some "dial tcp: connection refused" }

/-- The context is cancelled during the wait that follows the opening of the
signaling channel. -/
def envCancelled : Env := { envUp with cancelledIn := some Phase.signalOpen }

/-- The engine rejects the configuration. -/
def envRejected : Env := { envUp with ipcSet := some "invalid UAPI" }

/-- The key made of 32 bytes `0x01`. -/
def key1 : Key := Key.replicate 1

/-- The key made of 32 bytes `0x02`. -/
def key2 : Key := Key.replicate 2

/-- The key `key1` with its first byte replaced by `0x02`. -/
def key1Alt : Key := ⟨2 :: List.replicate 31 1, by simp [KeyLen]⟩

/-- A page with `key1` as private key and `key2` as peer key, nothing logged,
no bring-up started. -/
def pageReady : State := ⟨⟨key1.String, "", key2.String⟩, [], [], none⟩

/-- A page whose private-key field holds text that is not a key, with one
bring-up already started. -/
def pageBadRunning : State := ⟨⟨"not a key", "", key2.String⟩, [], [(key1, key2)], none⟩

/-! ## Callback return lemmas -/

@[simp]
theorem funcOfReturn_nil (s : State) : funcOfReturn none s = (none, s) := rfl

@[simp]
theorem funcOfReturn_err (e : Err) (s : State) :
    funcOfReturn (some e) s
      = (none, { s with spawned := [], exited := some "ValueOf: invalid value" }) := rfl

/-! ## Formatting lemmas -/

theorem sprintfChars_lit (c : Char) (l : List Char) (args : List String) (hc : c ≠ '%') :
    sprintfChars (c :: l) args = c :: sprintfChars l args := by
  cases l with
  | nil => simp [sprintfChars]
  | cons d rest => simp [sprintfChars, hc]

theorem sprintfChars_verb (rest : List Char) (a : String) (args : List String) :
    sprintfChars ('%' :: 's' :: rest) (a :: args) = a.data ++ sprintfChars rest args := by
  simp [sprintfChars]

theorem ipcText_data (key remoteKey : Key) :
    (ipcText key remoteKey).data =
      "private_key=".data ++ hexEncode key.bytes ++ "\npublic_key=".data
        ++ hexEncode remoteKey.bytes
        ++ "\npersistent_keepalive_interval=5\nendpoint=65.108.52.126:50000\nallowed_ip=0.0.0.0/0".data := by
  simp [ipcText, Sprintf, ipcFormat, sprintfChars_lit, sprintfChars_verb, hexEncodeToString,
    sprintfChars]

theorem ipcText_eq (key remoteKey : Key) :
    ipcText key remoteKey =
      "private_key=" ++ hexEncodeToString key.bytes ++ "\npublic_key="
        ++ hexEncodeToString remoteKey.bytes
        ++ "\npersistent_keepalive_interval=5\nendpoint=65.108.52.126:50000\nallowed_ip=0.0.0.0/0" := by
  apply String.ext
  rw [ipcText_data]
  simp [String.data_append, hexEncodeToString]

/-! ## Hexadecimal lemmas -/

theorem hexDigit_mem (n : Nat) (h : n < 16) : hexDigit n ∈ hextable := by
  interval_cases n <;> decide

theorem fromHexChar_hexDigit (n : Nat) (h : n < 16) : fromHexChar (hexDigit n) = some n := by
  interval_cases n <;> decide

theorem hexEncode_length (bs : List Byte) : (hexEncode bs).length = 2 * bs.length := by
  induction bs with
  | nil => rfl
  | cons v rest ih => simp [hexEncode, ih]; omega

theorem hexEncode_mem (bs : List Byte) : ∀ c ∈ hexEncode bs, c ∈ hextable := by
  induction bs with
  | nil => simp [hexEncode]
  | cons v rest ih =>
    intro c hc
    simp only [hexEncode, List.mem_cons] at hc
    rcases hc with h | h | h
    · subst h; exact hexDigit_mem _ (by omega)
    · subst h; exact hexDigit_mem _ (Nat.mod_lt _ (by decide))
    · exact ih c h

theorem hexDecode_hexEncode (bs : List Byte) : hexDecode (hexEncode bs) = some bs := by
  induction bs with
  | nil => rfl
  | cons v rest ih =>
    have h1 : v.val / 16 < 16 := by omega
    have h2 : v.val % 16 < 16 := Nat.mod_lt _ (by decide)
    have h3 : byteOf (v.val / 16 * 16 + v.val % 16) = v := by
      apply Fin.ext
      simp only [byteOf]
      omega
    simp [hexEncode, hexDecode, fromHexChar_hexDigit _ h1, fromHexChar_hexDigit _ h2, ih, h3]

theorem hexEncode_no_newline (bs : List Byte) : '\n' ∉ hexEncode bs := by
  intro h
  have := hexEncode_mem bs _ h
  revert this
  decide

/-! ## Lines of the configuration text -/

theorem splitLines_single (p : List Char) (hp : '\n' ∉ p) : splitLines p = [p] := by
  induction p with
  | nil => rfl
  | cons c rest ih =>
    simp only [List.mem_cons, not_or] at hp
    have hc : c ≠ '\n' := fun h => hp.1 h.symm
    simp [splitLines, hc, ih hp.2]

theorem splitLines_append (p rest : List Char) (hp : '\n' ∉ p) :
    splitLines (p ++ '\n' :: rest) = p :: splitLines rest := by
  induction p with
  | nil => simp [splitLines]
  | cons c q ih =>
    simp only [List.mem_cons, not_or] at hp
    have hc : c ≠ '\n' := fun h => hp.1 h.symm
    simp [splitLines, hc, ih hp.2]

theorem cutEq_append (p rest : List Char) (hp : '=' ∉ p) :
    cutEq (p ++ '=' :: rest) = some (p, rest) := by
  induction p with
  | nil => simp [cutEq]
  | cons c q ih =>
    simp only [List.mem_cons, not_or] at hp
    have hc : c ≠ '=' := fun h => hp.1 h.symm
    simp [cutEq, hc, ih hp.2]

theorem ipcText_lines (key remoteKey : Key) :
    splitLines (ipcText key remoteKey).data =
      [ "private_key=".data ++ hexEncode key.bytes,
        "public_key=".data ++ hexEncode remoteKey.bytes,
        "persistent_keepalive_interval=5".data,
        "endpoint=65.108.52.126:50000".data,
        "allowed_ip=0.0.0.0/0".data ] := by
  have hk : '\n' ∉ "private_key=".data ++ hexEncode key.bytes := by
    simp [hexEncode_no_newline]
  have hr : '\n' ∉ "public_key=".data ++ hexEncode remoteKey.bytes := by
    simp [hexEncode_no_newline]
  have e : (ipcText key remoteKey).data =
      ("private_key=".data ++ hexEncode key.bytes) ++ '\n' ::
        (("public_key=".data ++ hexEncode remoteKey.bytes) ++ '\n' ::
          ("persistent_keepalive_interval=5".data ++ '\n' ::
            ("endpoint=65.108.52.126:50000".data ++ '\n' :: "allowed_ip=0.0.0.0/0".data))) := by
    rw [ipcText_data]; simp
  rw [e, splitLines_append _ _ hk, splitLines_append _ _ hr,
    splitLines_append _ _ (by decide), splitLines_append _ _ (by decide),
    splitLines_single _ (by decide)]

theorem lookup_private_key (key remoteKey : Key) :
    lookupValue "private_key" (ipcText key remoteKey) = some (hexEncodeToString key.bytes) := by
  have c : cutEq ("private_key".data ++ '=' :: hexEncode key.bytes)
      = some ("private_key".data, hexEncode key.bytes) := cutEq_append _ _ (by decide)
  have e : "private_key=".data ++ hexEncode key.bytes
      = "private_key".data ++ '=' :: hexEncode key.bytes := by simp
  simp only [lookupValue, ipcText_lines, List.findSome?, e, c]
  simp [hexEncodeToString]

theorem lookup_public_key (key remoteKey : Key) :
    lookupValue "public_key" (ipcText key remoteKey)
      = some (hexEncodeToString remoteKey.bytes) := by
  have c1 : cutEq ("private_key".data ++ '=' :: hexEncode key.bytes)
      = some ("private_key".data, hexEncode key.bytes) := cutEq_append _ _ (by decide)
  have e1 : "private_key=".data ++ hexEncode key.bytes
      = "private_key".data ++ '=' :: hexEncode key.bytes := by simp
  have c2 : cutEq ("public_key".data ++ '=' :: hexEncode remoteKey.bytes)
      = some ("public_key".data, hexEncode remoteKey.bytes) := cutEq_append _ _ (by decide)
  have e2 : "public_key=".data ++ hexEncode remoteKey.bytes
      = "public_key".data ++ '=' :: hexEncode remoteKey.bytes := by simp
  simp only [lookupValue, ipcText_lines, List.findSome?, e1, c1, e2, c2]
  simp [hexEncodeToString]


/-! ## Base64 round trip -/

theorem b64Sextet_b64Char (n : Nat) (h : n < 64) : b64Sextet (b64Char n) = some n := by
  interval_cases n <;> decide

theorem b64Char_ne_pad (n : Nat) (h : n < 64) : b64Char n ≠ '=' := by
  interval_cases n <;> decide

theorem b64Encode_eq_nil (bs : List Byte) (h : b64Encode bs = []) : bs = [] := by
  match bs, h with
  | [], _ => rfl
  | [_], h => simp [b64Encode] at h
  | [_, _], h => simp [b64Encode] at h
  | _ :: _ :: _ :: _, h => simp [b64Encode] at h

theorem b64_quantum (x y z : Nat) (hx : x < 256) (hy : y < 256) (hz : z < 256) :
    let val := x * 65536 + y * 256 + z
    let w := (val / 262144 % 64) * 262144 + (val / 4096 % 64) * 4096
      + (val / 64 % 64) * 64 + val % 64
    w / 65536 % 256 = x ∧ w / 256 % 256 = y ∧ w % 256 = z := by
  intro val w
  have : w = val := by omega
  omega

theorem b64DecodeQuanta_b64Encode (bs : List Byte) :
    b64DecodeQuanta (b64Encode bs) = some bs := by
  induction bs using b64Encode.induct with
  | case1 => rfl
  | case2 x =>
    have hx := x.isLt
    simp only [b64Encode, b64DecodeQuanta, b64DecodeLast,
      b64Sextet_b64Char _ (Nat.mod_lt _ (by decide : 0 < 64))]
    simp only [if_true, Option.some.injEq, List.cons.injEq, and_true]
    apply Fin.ext
    simp only [byteOf]
    omega
  | case3 x y =>
    have hx := x.isLt
    have hy := y.isLt
    simp only [b64Encode, b64DecodeQuanta, b64DecodeLast,
      b64Sextet_b64Char _ (Nat.mod_lt _ (by decide : 0 < 64)),
      b64Char_ne_pad _ (Nat.mod_lt _ (by decide : 0 < 64))]
    simp only [if_true, if_false, Option.some.injEq, List.cons.injEq, and_true]
    constructor <;> apply Fin.ext <;> simp only [byteOf] <;> omega
  | case4 x y z rest ih =>
    have hx := x.isLt
    have hy := y.isLt
    have hz := z.isLt
    have q := b64_quantum x.val y.val z.val hx hy hz
    simp only at q
    have b0 : byteOf (((x.val * 65536 + y.val * 256 + z.val) / 262144 % 64 * 262144
        + (x.val * 65536 + y.val * 256 + z.val) / 4096 % 64 * 4096
        + (x.val * 65536 + y.val * 256 + z.val) / 64 % 64 * 64
        + (x.val * 65536 + y.val * 256 + z.val) % 64) / 65536) = x := by
      apply Fin.ext; simp only [byteOf]; exact q.1
    have b1 : byteOf (((x.val * 65536 + y.val * 256 + z.val) / 262144 % 64 * 262144
        + (x.val * 65536 + y.val * 256 + z.val) / 4096 % 64 * 4096
        + (x.val * 65536 + y.val * 256 + z.val) / 64 % 64 * 64
        + (x.val * 65536 + y.val * 256 + z.val) % 64) / 256) = y := by
      apply Fin.ext; simp only [byteOf]; exact q.2.1
    have b2 : byteOf ((x.val * 65536 + y.val * 256 + z.val) / 262144 % 64 * 262144
        + (x.val * 65536 + y.val * 256 + z.val) / 4096 % 64 * 4096
        + (x.val * 65536 + y.val * 256 + z.val) / 64 % 64 * 64
        + (x.val * 65536 + y.val * 256 + z.val) % 64) = z := by
      apply Fin.ext; simp only [byteOf]; exact q.2.2
    simp only [b64Encode]
    cases h : b64Encode rest with
    | nil =>
      have hr := b64Encode_eq_nil rest h
      subst hr
      simp only [b64DecodeQuanta, b64DecodeLast,
        b64Sextet_b64Char _ (Nat.mod_lt _ (by decide : 0 < 64)),
        b64Char_ne_pad _ (Nat.mod_lt _ (by decide : 0 < 64))]
      simp only [if_false, b0, b1, b2]
    | cons e t =>
      rw [h] at ih
      simp only [b64DecodeQuanta, ih,
        b64Sextet_b64Char _ (Nat.mod_lt _ (by decide : 0 < 64))]
      simp only [b0, b1, b2]

theorem b64Char_keep (n : Nat) (h : n < 64) :
    (b64Char n != '\n' && b64Char n != '\r') = true := by
  interval_cases n <;> decide

theorem b64Encode_forall (P : Char → Prop) (hc : ∀ n, n < 64 → P (b64Char n)) (hp : P '=')
    (bs : List Byte) : ∀ c ∈ b64Encode bs, P c := by
  have m : ∀ n : Nat, P (b64Char (n % 64)) := fun n => hc _ (Nat.mod_lt _ (by decide))
  induction bs using b64Encode.induct with
  | case1 => simp [b64Encode]
  | case2 x => simp [b64Encode, m, hp]
  | case3 x y => simp [b64Encode, m, hp]
  | case4 x y z rest ih =>
    intro c h
    simp only [b64Encode, List.mem_cons] at h
    rcases h with h | h | h | h | h
    · subst h; exact m _
    · subst h; exact m _
    · subst h; exact m _
    · subst h; exact m _
    · exact ih c h

theorem b64Encode_no_newline (bs : List Byte) :
    (b64Encode bs).filter (fun c => c != '\n' && c != '\r') = b64Encode bs := by
  rw [List.filter_eq_self]
  exact b64Encode_forall (fun c => (c != '\n' && c != '\r') = true) b64Char_keep (by decide) bs

theorem ParseKey_String (k : Key) : ParseKey k.String = .ok k := by
  have h : b64DecodeString k.String = some k.bytes := by
    simp only [b64DecodeString, Key.String, b64Encode_no_newline, b64DecodeQuanta_b64Encode]
  simp only [ParseKey, h, NewKey, k.len, dite_true]


/-! ## Bring-up lemmas -/

theorem connectToSignal_trace_failed (env : Env) (key remoteKey : Key) (e : Err)
    (h : env.newWebsocketClient (env.cancelledIn == some Phase.signalConnecting) = some e) :
    connectToSignal env key remoteKey =
      ⟨[Event.newWebsocketClient "ws://localhost:80/signal" key], Exit.returned⟩ := by
  simp [connectToSignal, h]

/-! ## The claims -/

/-- C1: for all keys `key` and `remoteKey` the text handed to `dev.IpcSet` is
the five lines `private_key=hex(key)`, `public_key=hex(remoteKey)`,
`persistent_keepalive_interval=5`, `endpoint=65.108.52.126:50000`,
`allowed_ip=0.0.0.0/0` joined by single newlines, with nothing after the last
line; every execution of the bring-up passes this text to the engine exactly
once when the signaling channel opened and never passes any other text; for
32 bytes `0x01` and 32 bytes `0x02` the text is the expected literal. -/
theorem C1_config_text (env : Env) (key remoteKey : Key) :
    ipcText key remoteKey =
        String.intercalate "\n"
          [ "private_key=" ++ hexEncodeToString key.bytes,
            "public_key=" ++ hexEncodeToString remoteKey.bytes,
            "persistent_keepalive_interval=5",
            "endpoint=65.108.52.126:50000",
            "allowed_ip=0.0.0.0/0" ]
    ∧ (connectToSignal env key remoteKey).trace.filter Event.isIpcSet =
        (match env.newWebsocketClient (env.cancelledIn == some Phase.signalConnecting) with
         | some _ => []
         | none => [Event.ipcSet (ipcText key remoteKey)])
    ∧ ipcText (Key.replicate 1) (Key.replicate 2) =
        "private_key=0101010101010101010101010101010101010101010101010101010101010101\npublic_key=0202020202020202020202020202020202020202020202020202020202020202\npersistent_keepalive_interval=5\nendpoint=65.108.52.126:50000\nallowed_ip=0.0.0.0/0" := by
  refine ⟨?_, ?_, by decide⟩
  · rw [ipcText_eq]
    apply String.ext
    simp [String.intercalate, String.intercalate.go, String.data_append]
  · cases h : env.newWebsocketClient (env.cancelledIn == some Phase.signalConnecting) with
    | some e => simp [connectToSignal, h, Event.isIpcSet]
    | none =>
      cases h1 : env.ipcSet with
      | some e1 => simp [connectToSignal, h, h1, Event.isIpcSet, ipcText]
      | none =>
        cases h2 : env.devUp with
        | some e2 => simp [connectToSignal, h, h1, h2, Event.isIpcSet, ipcText]
        | none => simp [connectToSignal, h, h1, h2, Event.isIpcSet, ipcText]

/-- C2: for all keys `key` and `remoteKey`, the value of `private_key` in the
configuration text is the hexadecimal encoding of `key` and the value of
`public_key` that of `remoteKey`; each has exactly 64 characters, all of them
among `0123456789abcdef`, and `hex.DecodeString` gives back the 32 bytes. -/
theorem C2_hex_values (key remoteKey : Key) :
    lookupValue "private_key" (ipcText key remoteKey) = some (hexEncodeToString key.bytes)
    ∧ lookupValue "public_key" (ipcText key remoteKey)
        = some (hexEncodeToString remoteKey.bytes)
    ∧ (hexEncodeToString key.bytes).length = 64
    ∧ (hexEncodeToString remoteKey.bytes).length = 64
    ∧ (∀ c ∈ (hexEncodeToString key.bytes).data, c ∈ "0123456789abcdef".data)
    ∧ (∀ c ∈ (hexEncodeToString remoteKey.bytes).data, c ∈ "0123456789abcdef".data)
    ∧ hexDecodeString (hexEncodeToString key.bytes) = some key.bytes
    ∧ hexDecodeString (hexEncodeToString remoteKey.bytes) = some remoteKey.bytes
    ∧ key.bytes.length = 32 ∧ remoteKey.bytes.length = 32 := by
  refine ⟨lookup_private_key key remoteKey, lookup_public_key key remoteKey, ?_, ?_,
    hexEncode_mem key.bytes, hexEncode_mem remoteKey.bytes, hexDecode_hexEncode key.bytes,
    hexDecode_hexEncode remoteKey.bytes, key.len, remoteKey.len⟩
  · simp [hexEncodeToString, String.length, hexEncode_length, key.len, KeyLen]
  · simp [hexEncodeToString, String.length, hexEncode_length, remoteKey.len, KeyLen]

/-- C3: for every key `k` that `generateWireguardKey` receives from
`GenerateKey`, the text it writes to the private-key field is `k.String()`,
`ParseKey` of that text succeeds with `k`, the public key of the parsed key is
the public key of `k`, which is the one `generateWireguardKey` published, and
a following `connect` (with any valid peer key `r`) starts the bring-up with
`k` and logs that same public key; keys with equal bytes have equal public
keys. -/
theorem C3_generate_parse_roundtrip (env : Env) (s : State) (k r : Key) :
    (generateWireguardKey env (Except.ok k) s).2.dom.wgPrivateKey = k.String
    ∧ (generateWireguardKey env (Except.ok k) s).2.dom.publicKey = (k.PublicKey env).String
    ∧ ParseKey (generateWireguardKey env (Except.ok k) s).2.dom.wgPrivateKey = Except.ok k
    ∧ (ParseKey (generateWireguardKey env (Except.ok k) s).2.dom.wgPrivateKey).map
        (Key.PublicKey env) = Except.ok (k.PublicKey env)
    ∧ (connect env
        { (generateWireguardKey env (Except.ok k) s).2 with
          dom := { (generateWireguardKey env (Except.ok k) s).2.dom with
                   peerKey := r.String } }).2.spawned = s.spawned ++ [(k, r)]
    ∧ (connect env
        { (generateWireguardKey env (Except.ok k) s).2 with
          dom := { (generateWireguardKey env (Except.ok k) s).2.dom with
                   peerKey := r.String } }).2.log.getLast? =
        some ("Our Wireguard Public key "
          ++ (generateWireguardKey env (Except.ok k) s).2.dom.publicKey)
    ∧ (∀ k1 k2 : Key, k1.bytes = k2.bytes → k1.PublicKey env = k2.PublicKey env) := by
  have hp : ParseKey k.String = Except.ok k := ParseKey_String k
  have hr : ParseKey r.String = Except.ok r := ParseKey_String r
  refine ⟨rfl, rfl, hp, ?_, ?_, ?_, ?_⟩
  · simp [generateWireguardKey, hp, Except.map]
  · simp [generateWireguardKey, connect, hp, hr]
  · simp only [generateWireguardKey, connect, funcOfReturn_nil, hp, hr]
    simp only [List.getLast?_append, List.getLast?_singleton]
    rw [show ∀ (a : String) (b : Option String), (some a).or b = some a from fun _ _ => rfl]
    rw [Option.some.injEq]
    apply String.ext
    simp [Sprintf, sprintfChars_lit, sprintfChars_verb, sprintfChars, String.data_append]
  · intro k1 k2 h
    cases k1; cases k2
    simp only at h
    subst h
    rfl


theorem ParseKey_ok_iff (s : String) : (∃ k, ParseKey s = Except.ok k) ↔ DecodesTo32 s := by
  unfold ParseKey DecodesTo32
  cases h : b64DecodeString s with
  | none => simp
  | some b =>
    by_cases hl : b.length = KeyLen
    · simp only [NewKey, hl, dite_true, Option.map_some']
      constructor
      · intro _; simp [KeyLen]
      · intro _; exact ⟨_, rfl⟩
    · simp only [NewKey, hl, dite_false, Option.map_some']
      constructor
      · rintro ⟨k, hk⟩; cases hk
      · intro h32; simp [KeyLen] at hl h32; exact absurd h32 hl

theorem ParseKey_bytes (s : String) (k : Key) (h : ParseKey s = Except.ok k) :
    b64DecodeString s = some k.bytes := by
  unfold ParseKey at h
  cases hd : b64DecodeString s with
  | none => rw [hd] at h; cases h
  | some b =>
    rw [hd] at h
    by_cases hl : b.length = KeyLen
    · simp only [NewKey, hl, dite_true] at h
      cases h
      rfl
    · simp only [NewKey, hl, dite_false] at h
      cases h

theorem connect_invalid (env : Env) (s : State)
    (h : ¬ DecodesTo32 s.dom.wgPrivateKey ∨ ¬ DecodesTo32 s.dom.peerKey) :
    connect env s
      = (none, { s with spawned := [], exited := some "ValueOf: invalid value" }) := by
  cases h1 : ParseKey s.dom.wgPrivateKey with
  | error e1 => simp [connect, h1]
  | ok k =>
    have d1 : DecodesTo32 s.dom.wgPrivateKey := (ParseKey_ok_iff _).1 ⟨k, h1⟩
    cases h2 : ParseKey s.dom.peerKey with
    | error e2 => simp [connect, h1, h2]
    | ok r =>
      have d2 : DecodesTo32 s.dom.peerKey := (ParseKey_ok_iff _).1 ⟨r, h2⟩
      rcases h with h | h
      · exact absurd d1 h
      · exact absurd d2 h

theorem connect_valid (env : Env) (s : State)
    (hk : DecodesTo32 s.dom.wgPrivateKey) (hr : DecodesTo32 s.dom.peerKey) :
    ∃ k r : Key, b64DecodeString s.dom.wgPrivateKey = some k.bytes
      ∧ b64DecodeString s.dom.peerKey = some r.bytes
      ∧ (connect env s).1 = none
      ∧ (connect env s).2.spawned = s.spawned ++ [(k, r)]
      ∧ (connect env s).2.exited = s.exited := by
  obtain ⟨k, h1⟩ := (ParseKey_ok_iff _).2 hk
  obtain ⟨r, h2⟩ := (ParseKey_ok_iff _).2 hr
  exact ⟨k, r, ParseKey_bytes _ _ h1, ParseKey_bytes _ _ h2, by simp [connect, h1, h2],
    by simp [connect, h1, h2], by simp [connect, h1, h2]⟩

/-- C4, as the code behaves: no error ever reaches the caller of `connect`.
When one of the two key texts does not decode to 32 bytes, the callback ends
with `return err`, the conversion of that Go error by `js.ValueOf` panics, the
program exits with `ValueOf: invalid value` and the bring-ups started earlier
end with it. When both texts decode to 32 bytes, `connect` starts exactly one
bring-up with the keys made of the decoded bytes. On the page whose
private-key field holds `not a key`, with one bring-up running, the call
leaves the program exited and no bring-up. -/
theorem C4_connect_invalid_key_panics (env : Env) (s : State) :
    (connect env s).1 = none
    ∧ ((¬ DecodesTo32 s.dom.wgPrivateKey ∨ ¬ DecodesTo32 s.dom.peerKey) →
        (connect env s).2
          = { s with spawned := [], exited := some "ValueOf: invalid value" })
    ∧ (DecodesTo32 s.dom.wgPrivateKey ∧ DecodesTo32 s.dom.peerKey →
        ∃ k r : Key, b64DecodeString s.dom.wgPrivateKey = some k.bytes
          ∧ b64DecodeString s.dom.peerKey = some r.bytes
          ∧ (connect env s).2.spawned = s.spawned ++ [(k, r)]
          ∧ (connect env s).2.exited = s.exited)
    ∧ ¬ DecodesTo32 pageBadRunning.dom.wgPrivateKey
    ∧ connect envUp pageBadRunning
        = (none, ⟨⟨"not a key", "", key2.String⟩, [], [], some "ValueOf: invalid value"⟩) := by
  refine ⟨?_, ?_, ?_, by decide, by decide⟩
  · by_cases h : DecodesTo32 s.dom.wgPrivateKey ∧ DecodesTo32 s.dom.peerKey
    · obtain ⟨_, _, _, _, h1, _⟩ := connect_valid env s h.1 h.2
      exact h1
    · have h' : ¬ DecodesTo32 s.dom.wgPrivateKey ∨ ¬ DecodesTo32 s.dom.peerKey := by
        by_cases hk : DecodesTo32 s.dom.wgPrivateKey
        · exact Or.inr (fun hr => h ⟨hk, hr⟩)
        · exact Or.inl hk
      rw [connect_invalid env s h']
  · intro h
    rw [connect_invalid env s h]
  · intro h
    obtain ⟨k, r, a, b, _, c, d⟩ := connect_valid env s h.1 h.2
    exact ⟨k, r, a, b, c, d⟩

/-- C5, as the code behaves: a second `connect` on a page holding two valid
keys, issued after a first one started its bring-up, returns no error and
starts a second bring-up next to the first. -/
theorem C5_second_connect_counterexample :
    (connect envUp pageReady).1 = none
    ∧ (connect envUp pageReady).2.spawned = [(key1, key2)]
    ∧ (connect envUp (connect envUp pageReady).2).1 = none
    ∧ (connect envUp (connect envUp pageReady).2).2.spawned
        = [(key1, key2), (key1, key2)] := by
  decide

/-- C5 amended: whenever both key fields decode to 32 bytes, `connect` returns
no error and adds one bring-up to those already started, however many there
are; the bring-ups started earlier stay as they were. -/
theorem C5_connect_always_spawns (env : Env) (s : State)
    (hk : DecodesTo32 s.dom.wgPrivateKey) (hr : DecodesTo32 s.dom.peerKey) :
    (connect env s).1 = none
    ∧ ∃ k r : Key, (connect env s).2.spawned = s.spawned ++ [(k, r)] := by
  obtain ⟨k, r, _, _, h1, h2, _⟩ := connect_valid env s hk hr
  exact ⟨h1, k, r, h2⟩

/-- Instance of C5 amended: the page with two valid keys on which one bring-up
is already started. -/
theorem C5_connect_always_spawns_witness :
    DecodesTo32 (connect envUp pageReady).2.dom.wgPrivateKey
    ∧ DecodesTo32 (connect envUp pageReady).2.dom.peerKey
    ∧ (connect envUp pageReady).2.spawned = [(key1, key2)]
    ∧ (connect envUp (connect envUp pageReady).2).1 = none
    ∧ ∃ k r : Key, (connect envUp (connect envUp pageReady).2).2.spawned
        = (connect envUp pageReady).2.spawned ++ [(k, r)] :=
  ⟨by decide, by decide, by decide,
   (C5_connect_always_spawns envUp (connect envUp pageReady).2 (by decide) (by decide)).1,
   (C5_connect_always_spawns envUp (connect envUp pageReady).2 (by decide) (by decide)).2⟩


/-- C6: in every execution of the bring-up, whatever the outcome of each step,
the four steps occur in the order signaling channel, binding, configuration,
engine start, each at most once; the binding is created exactly when the
signaling channel opened without error, and the engine is started exactly
when moreover the configuration was applied without error. -/
theorem C6_bringup_order (env : Env) (key remoteKey : Key) :
    (connectToSignal env key remoteKey).trace.filter Event.isMilestone =
        (match env.newWebsocketClient (env.cancelledIn == some Phase.signalConnecting) with
         | some _ => [Event.newWebsocketClient "ws://localhost:80/signal" key]
         | none =>
           match env.ipcSet with
           | some _ =>
             [Event.newWebsocketClient "ws://localhost:80/signal" key,
              Event.newWebRTCBind "chann-1" (key.PublicKey env).String remoteKey.String,
              Event.ipcSet (ipcText key remoteKey)]
           | none =>
             [Event.newWebsocketClient "ws://localhost:80/signal" key,
              Event.newWebRTCBind "chann-1" (key.PublicKey env).String remoteKey.String,
              Event.ipcSet (ipcText key remoteKey),
              Event.devUp])
    ∧ (Event.devUp ∈ (connectToSignal env key remoteKey).trace ↔
        (env.newWebsocketClient (env.cancelledIn == some Phase.signalConnecting) = none
          ∧ env.ipcSet = none))
    ∧ ((∃ e ∈ (connectToSignal env key remoteKey).trace, e.isBind = true) ↔
        env.newWebsocketClient (env.cancelledIn == some Phase.signalConnecting) = none) := by
  cases h : env.newWebsocketClient (env.cancelledIn == some Phase.signalConnecting) with
  | some e =>
    simp [connectToSignal, h, Event.isMilestone, Event.isSignal, Event.isBind, Event.isIpcSet,
      Event.isUp]
  | none =>
    cases h1 : env.ipcSet with
    | some e1 =>
      simp [connectToSignal, h, h1, Event.isMilestone, Event.isSignal, Event.isBind,
        Event.isIpcSet, Event.isUp, ipcText]
    | none =>
      cases h2 : env.devUp with
      | some e2 =>
        simp [connectToSignal, h, h1, h2, Event.isMilestone, Event.isSignal, Event.isBind,
          Event.isIpcSet, Event.isUp, ipcText]
      | none =>
        simp [connectToSignal, h, h1, h2, Event.isMilestone, Event.isSignal, Event.isBind,
          Event.isIpcSet, Event.isUp, ipcText]

/-- C7, as the code behaves: when the signaling service refuses the
connection the bring-up returns with nothing written to the log and no panic,
so the error is reported nowhere; when `GenerateKey` fails,
`generateWireguardKey` returns `nil` and leaves page and log as they were. -/
theorem C7_discarded_errors_counterexample :
    envSignalDown.newWebsocketClient (envSignalDown.cancelledIn == some Phase.signalConnecting)
        = some "dial tcp: connection refused"
    ∧ (connectToSignal envSignalDown key1 key2).reports "dial tcp: connection refused" = false
    ∧ logOf (connectToSignal envSignalDown key1 key2).trace = []
    ∧ (connectToSignal envSignalDown key1 key2).exit = Exit.returned
    ∧ generateWireguardKey envUp (Except.error "rand: unavailable") pageReady
        = (none, pageReady) := by
  decide

/-- C7 amended: a failure to open the signaling channel makes the bring-up
return at once, and a failure to generate a key makes `generateWireguardKey`
return `nil` at once; in both cases no later step runs and the error is not
reported. A failure to apply the configuration, or to start the engine, is
written to the log and raised as a panic by `log.Panic`, and no later step
runs: the engine is not started after a rejected configuration and
`device started` is not logged after a failed start. -/
theorem C7_error_paths (env : Env) (key remoteKey : Key) (s : State) (e : Err) :
    (env.newWebsocketClient (env.cancelledIn == some Phase.signalConnecting) = some e →
        connectToSignal env key remoteKey =
          ⟨[Event.newWebsocketClient "ws://localhost:80/signal" key], Exit.returned⟩)
    ∧ generateWireguardKey env (Except.error e) s = (none, s)
    ∧ (env.newWebsocketClient (env.cancelledIn == some Phase.signalConnecting) = none →
        env.ipcSet = some e →
        (connectToSignal env key remoteKey).reports e = true
        ∧ (connectToSignal env key remoteKey).exit = Exit.panicked e
        ∧ (connectToSignal env key remoteKey).trace.getLast? = some (Event.logPanic e)
        ∧ Event.devUp ∉ (connectToSignal env key remoteKey).trace)
    ∧ (env.newWebsocketClient (env.cancelledIn == some Phase.signalConnecting) = none →
        env.ipcSet = none → env.devUp = some e →
        (connectToSignal env key remoteKey).reports e = true
        ∧ (connectToSignal env key remoteKey).exit = Exit.panicked e
        ∧ (connectToSignal env key remoteKey).trace.getLast? = some (Event.logPanic e)
        ∧ Event.logPrintf "device started" ∉ (connectToSignal env key remoteKey).trace) := by
  refine ⟨fun h => connectToSignal_trace_failed env key remoteKey e h, rfl, ?_, ?_⟩
  · intro h h1
    simp [connectToSignal, h, h1, Run.reports, logOf]
  · intro h h1 h2
    have c : Sprintf "connected to signal" [] = "connected to signal" := by decide
    simp [connectToSignal, h, h1, h2, Run.reports, logOf, c]

/-- Instances of C7 amended: the refused signaling connection and the
rejected configuration. -/
theorem C7_error_paths_witness :
    connectToSignal envSignalDown key1 key2 =
        ⟨[Event.newWebsocketClient "ws://localhost:80/signal" key1], Exit.returned⟩
    ∧ (connectToSignal envRejected key1 key2).reports "invalid UAPI" = true
    ∧ (connectToSignal envRejected key1 key2).exit = Exit.panicked "invalid UAPI" :=
  ⟨(C7_error_paths envSignalDown key1 key2 pageReady "dial tcp: connection refused").1
      (by decide),
   ((C7_error_paths envRejected key1 key2 pageReady "invalid UAPI").2.2.1
      (by decide) (by decide)).1,
   ((C7_error_paths envRejected key1 key2 pageReady "invalid UAPI").2.2.1
      (by decide) (by decide)).2.1⟩


/-- C8, as the code behaves: when the context is cancelled during the wait
that follows the opening of the signaling channel and the remaining steps
succeed, the bring-up still creates the binding, starts the engine and blocks
with the device started, and it closes neither the signaling channel nor the
binding. -/
theorem C8_cancel_counterexample :
    envCancelled.cancelledIn = some Phase.signalOpen
    ∧ Event.newWebsocketClient "ws://localhost:80/signal" key1
        ∈ (connectToSignal envCancelled key1 key2).trace
    ∧ (∃ e ∈ (connectToSignal envCancelled key1 key2).trace, e.isBind = true)
    ∧ Event.devUp ∈ (connectToSignal envCancelled key1 key2).trace
    ∧ (connectToSignal envCancelled key1 key2).exit = Exit.blocked
    ∧ (connectToSignal envCancelled key1 key2).trace.count Event.closeSignal = 0
    ∧ (connectToSignal envCancelled key1 key2).trace.count Event.closeBind = 0 := by
  decide

/-- C8 amended: the bring-up reads the cancellation of the context only
through the call that opens the signaling channel; a cancellation in any
later stage changes nothing of the execution, and no execution, cancelled or
not, closes the signaling channel or the binding. -/
theorem C8_cancellation_ignored (env : Env) (key remoteKey : Key) :
    (∀ c : Option Phase, c ≠ some Phase.signalConnecting →
        connectToSignal { env with cancelledIn := c } key remoteKey
          = connectToSignal { env with cancelledIn := none } key remoteKey)
    ∧ (connectToSignal env key remoteKey).trace.filter Event.isClose = [] := by
  constructor
  · intro c hc
    have hb : (c == some Phase.signalConnecting) = false := by
      cases c with
      | none => rfl
      | some p => cases p <;> first | rfl | exact absurd rfl hc
    simp only [connectToSignal, hb]
    rfl
  · cases h : env.newWebsocketClient (env.cancelledIn == some Phase.signalConnecting) with
    | some e => simp [connectToSignal, h, Event.isClose]
    | none =>
      cases h1 : env.ipcSet with
      | some e1 => simp [connectToSignal, h, h1, Event.isClose]
      | none =>
        cases h2 : env.devUp with
        | some e2 => simp [connectToSignal, h, h1, h2, Event.isClose]
        | none => simp [connectToSignal, h, h1, h2, Event.isClose]

/-- Instance of C8 amended: a cancellation during the wait after the
signaling channel opened. -/
theorem C8_cancellation_ignored_witness :
    connectToSignal { envUp with cancelledIn := some Phase.signalOpen } key1 key2
      = connectToSignal { envUp with cancelledIn := none } key1 key2 :=
  (C8_cancellation_ignored envUp key1 key2).1 (some Phase.signalOpen) (by decide)

/-- C9: when two private keys have the same public key, the log messages of
`generateWireguardKey`, of `connect` and of `connectToSignal` are the same for
both, the remote key and the outcomes of the external calls being equal: the
messages depend on the private key only through its public key. -/
theorem C9_private_key_not_logged (env : Env) (s : State) (k1 k2 r : Key)
    (h : k1.PublicKey env = k2.PublicKey env) :
    (generateWireguardKey env (Except.ok k1) s).2.log
        = (generateWireguardKey env (Except.ok k2) s).2.log
    ∧ (connect env { s with dom := { s.dom with wgPrivateKey := k1.String } }).2.log
        = (connect env { s with dom := { s.dom with wgPrivateKey := k2.String } }).2.log
    ∧ logOf (connectToSignal env k1 r).trace = logOf (connectToSignal env k2 r).trace := by
  refine ⟨?_, ?_, ?_⟩
  · simp [generateWireguardKey, h]
  · simp only [connect, ParseKey_String]
    cases ParseKey s.dom.peerKey with
    | error e => rfl
    | ok rk => simp [h]
  · cases h0 : env.newWebsocketClient (env.cancelledIn == some Phase.signalConnecting) with
    | some e => simp [connectToSignal, h0, logOf]
    | none =>
      cases h1 : env.ipcSet with
      | some e1 => simp [connectToSignal, h0, h1, logOf]
      | none =>
        cases h2 : env.devUp with
        | some e2 => simp [connectToSignal, h0, h1, h2, logOf]
        | none => simp [connectToSignal, h0, h1, h2, logOf]

/-- Instance of C9: two private keys that differ in their first byte and have
the same public key under the sample environment. -/
theorem C9_private_key_not_logged_witness :
    key1 ≠ key1Alt
    ∧ key1.PublicKey envUp = key1Alt.PublicKey envUp
    ∧ logOf (connectToSignal envUp key1 key2).trace
        = logOf (connectToSignal envUp key1Alt key2).trace :=
  ⟨by decide, by decide,
   (C9_private_key_not_logged envUp pageReady key1 key1Alt key2 (by decide)).2.2⟩

/-- C10: the client returned by `getClientPrivate` dials from the local
address `u.lIP` with port 0 and with the timeout `upstreamTimeout`; its
`Control` hook returns the error of the raw connection when `Control` on it
failed, otherwise the result of setting `IP_BOUND_IF` to `u.iIndex` on the
descriptor at level `IPPROTO_IP`; it returns `nil` exactly when the raw
connection ran the function and the socket option was set without error. -/
theorem C10_getClientPrivate (sys : Sys) (upstreamTimeout : Int) (u : UpstreamResolver)
    (network address : String) (c : RawConn) :
    (getClientPrivate sys upstreamTimeout u).Dialer.LocalAddr = { IP := u.lIP, Port := 0 }
    ∧ (getClientPrivate sys upstreamTimeout u).Dialer.Timeout = upstreamTimeout
    ∧ ((getClientPrivate sys upstreamTimeout u).Dialer.Control network address c).1 =
        (match c with
         | RawConn.closed err => some err
         | RawConn.live fd => sys.SetsockoptInt fd IPPROTO_IP IP_BOUND_IF u.iIndex)
    ∧ (((getClientPrivate sys upstreamTimeout u).Dialer.Control network address c).1 = none
        ↔ ∃ fd, c = RawConn.live fd
            ∧ sys.SetsockoptInt fd IPPROTO_IP IP_BOUND_IF u.iIndex = none) := by
  refine ⟨rfl, rfl, ?_, ?_⟩
  · cases c with
    | closed err => rfl
    | live fd =>
      simp only [getClientPrivate, controlHook]
      cases sys.SetsockoptInt fd IPPROTO_IP IP_BOUND_IF u.iIndex <;> rfl
  · cases c with
    | closed err => simp [getClientPrivate, controlHook]
    | live fd =>
      simp only [getClientPrivate, controlHook]
      cases h : sys.SetsockoptInt fd IPPROTO_IP IP_BOUND_IF u.iIndex <;> simp [h]

end Netbird
